import Mathlib

/-!
Shallow embedding of the JWKS cache and RS256 JWT verification pipeline
(package `ujwt`, with helpers from `ucheck` and error types from `userv`)
of the `go-util` repository, together with proofs of the specification
claims about it.

Machine integers are modelled as `Nat`/`Int` with explicit reductions
where the Go code truncates; byte slices are `List Nat` (each entry a
byte value); Go maps are association lists with overwrite-on-insert;
fallible operations return `Option`/`Except`.  External collaborators
(the HTTP transport, `encoding/json`, the RSA primitive) are passed in
as explicit oracle parameters, exactly at the boundary where the Go
code calls them; everything the repository itself implements is
translated directly from the source.
-/

deriving instance DecidableEq for Except

/-- Error classes from package `userv` used by `ujwt`: `Unautorized`
(string wrapper, HTTP 401, spelled as in the source) and `Forbidden`
(string wrapper, HTTP 403), each carrying a human-readable reason. -/
inductive ServErr where
  | Unautorized (msg : String)
  | Forbidden (msg : String)
deriving DecidableEq, Repr

/-- Go `rsa.PublicKey`: modulus `N` (arbitrary-precision, `big.Int`)
and public exponent `E` (checked to fit in 32 bits by `jwkToRSA`). -/
structure RSAPub where
  N : Nat
  E : Nat
deriving DecidableEq, Repr

/-- A single JSON Web Key as decoded from the JWKS JSON body
(struct `jwkt` in the source); `n` and `e` are base64url strings. -/
structure jwkt where
  Kid : String
  Kty : String
  Alg : String
  N : String
  E : String
deriving DecidableEq, Repr

/-- The cache's mapping from kid to RSA public key (`c.keys`,
a Go `map[string]*rsa.PublicKey`), as an association list with
unique keys maintained by `mapInsert`. -/
abbrev KeySet := List (String × RSAPub)

/-- Go map insertion `m[k] = v`: overwrite the existing binding for
`k` if present, otherwise append. -/
def mapInsert (m : KeySet) (k : String) (v : RSAPub) : KeySet :=
  match m with
  | [] => [(k, v)]
  | (k', v') :: rest =>
    if k' = k then (k, v) :: rest else (k', v') :: mapInsert rest k v

/-- Go map lookup `v, ok := m[k]`. -/
def mapLookup (m : KeySet) (k : String) : Option RSAPub :=
  match m with
  | [] => none
  | (k', v) :: rest => if k' = k then some v else mapLookup rest k

/-- Go `strings.Split(s, sep)` for a one-character separator, on the
character list: splits around every occurrence of `sep`; the result
always has one more element than the number of separators. -/
def splitChars (sep : Char) : List Char → List (List Char)
  | [] => [[]]
  | c :: cs =>
    if c = sep then [] :: splitChars sep cs
    else
      match splitChars sep cs with
      | [] => [[c]]
      | p :: ps => (c :: p) :: ps

/-- Go `strings.Split(s, sep)` for a one-character separator. -/
def goSplit (s : String) (sep : Char) : List String :=
  (splitChars sep s.toList).map fun l => String.mk l

/-- Go `strings.Join(elems, sep)`. -/
def goJoin : List String → String → String
  | [], _ => ""
  | [s], _ => s
  | s :: ss, sep => s ++ sep ++ goJoin ss sep

/-- Value of a base64url alphabet character (`A`-`Z` `a`-`z` `0`-`9`
`-` `_`), `none` for any other character. -/
def b64Val (c : Char) : Option Nat :=
  if 65 ≤ c.toNat ∧ c.toNat ≤ 90 then some (c.toNat - 65)
  else if 97 ≤ c.toNat ∧ c.toNat ≤ 122 then some (c.toNat - 97 + 26)
  else if 48 ≤ c.toNat ∧ c.toNat ≤ 57 then some (c.toNat - 48 + 52)
  else if c = '-' then some 62
  else if c = '_' then some 63
  else none

/-- Unpadded base64 decoding over four-character quanta, as in Go's
`encoding/base64` raw encodings: a trailing quantum of one character
is an error, two characters yield one byte, three yield two; Go's
default (non-strict) mode discards unused trailing bits. -/
def b64Quanta : List Char → Option (List Nat)
  | [] => some []
  | [_] => none
  | [a, b] => do
    let x ← b64Val a
    let y ← b64Val b
    some [x * 4 + y / 16]
  | [a, b, c] => do
    let x ← b64Val a
    let y ← b64Val b
    let z ← b64Val c
    some [x * 4 + y / 16, y % 16 * 16 + z / 4]
  | a :: b :: c :: d :: rest => do
    let x ← b64Val a
    let y ← b64Val b
    let z ← b64Val c
    let w ← b64Val d
    let tail ← b64Quanta rest
    some ([x * 4 + y / 16, y % 16 * 16 + z / 4, z % 4 * 64 + w] ++ tail)

/-- Go `base64.RawURLEncoding.DecodeString`: the URL-safe alphabet,
no padding; newline characters are skipped as in Go's decoder. -/
def rawURLDecode (s : String) : Option (List Nat) :=
  b64Quanta (s.toList.filter fun c => ¬(c = '\r' ∨ c = '\n'))

/-- Big-endian interpretation of a byte sequence as an unsigned
arbitrary-precision integer (`big.Int.SetBytes`). -/
def beBytesToNat (bs : List Nat) : Nat :=
  bs.foldl (fun acc b => acc * 256 + b) 0

/-- Source `jwkToRSA` (ujwt): base64url-decode modulus and exponent;
the exponent is interpreted by byte length — 3 bytes are extended with
a leading zero byte and read as big-endian `uint32`, 4 bytes are read
directly as big-endian `uint32`, any other length goes through
`big.Int.SetBytes(...).Uint64()`, which keeps only the low 64 bits;
the result must not exceed the maximum `uint32`. -/
def jwkToRSA (jwk : jwkt) : Except String RSAPub :=
  match rawURLDecode jwk.N with
  | none => .error "illegal base64 data"
  | some nb =>
    let n := beBytesToNat nb
    match rawURLDecode jwk.E with
    | none => .error "illegal base64 data"
    | some eb =>
      let e64 : Nat :=
        match eb.length with
        | 3 => beBytesToNat (0 :: eb)
        | 4 => beBytesToNat eb
        | _ => beBytesToNat eb % 2 ^ 64
      if e64 > 2 ^ 32 - 1 then .error "JWK exponent too large"
      else .ok ⟨n, e64⟩

/-- One iteration of the key-building loop in `Fetch`: skip a key
whose type is not "RSA", skip (logging only) a key that fails
`jwkToRSA`, otherwise store it under its kid. -/
def insertJWK (m : KeySet) (jwk : jwkt) : KeySet :=
  if jwk.Kty ≠ "RSA" then m
  else
    match jwkToRSA jwk with
    | .error _ => m
    | .ok pub => mapInsert m jwk.Kid pub

/-- The key mapping built by `Fetch` from the decoded JWKS body. -/
def buildKeys (ks : List jwkt) : KeySet :=
  ks.foldl insertJWK []

/-- Source `(c *JWKS) Fetch`: the HTTP collaborator's outcome is the
`resp` parameter — either a transport/decode error or a status code
with the decoded key list.  Returns the error result and the cache's
key mapping after the call (the mapping is replaced only on success). -/
def JWKS.Fetch (keys : KeySet) (resp : Except String (Nat × List jwkt)) :
    Except String Unit × KeySet :=
  match resp with
  | .error err => (.error err, keys)
  | .ok (status, respKeys) =>
    if status ≠ 200 then
      (.error ("JWKS fetch: expected 200, got " ++ toString status), keys)
    else
      let newKeys := buildKeys respKeys
      if newKeys.length = 0 then (.error "JWKS fetch: empty key set", keys)
      else (.ok (), newKeys)

/-- Source `(c *JWKS) Key`: read-locked lookup of a kid. -/
def JWKS.Key (keys : KeySet) (kid : String) : Option RSAPub :=
  mapLookup keys kid

/-- Source `ucheck.ContainsAny`: the first element of `query` that is
a member of `set`, or `none` when no element of `query` is. -/
def ContainsAny (set query : List String) : Option String :=
  match query with
  | [] => none
  | q :: query => if q ∈ set then some q else ContainsAny set query

/-- Token-use constant `TokenUseAccess`. -/
def TokenUseAccess : String := "access"

/-- Token-use constant `TokenUseID`. -/
def TokenUseID : String := "id"

/-- Decoded JWT header (struct `jwtHeader` in the source). -/
structure jwtHeader where
  Alg : String
  Typ : String
  Kid : String
deriving DecidableEq, Repr

/-- Decoded JWT claims (struct `JWTClaims` in the source); `Exp` is
epoch seconds. -/
structure JWTClaims where
  Iss : String
  TokenUse : String
  Exp : Int
  ClientID : String
  Roles : List String
  Aud : String
  Email : String
deriving DecidableEq, Repr

/-- Instants are nanoseconds since the Unix epoch; `time.Unix(sec, 0)`
is the whole-second instant `sec`. -/
def timeUnix (sec : Int) : Int := sec * 1000000000

/-- Go `time.Time.Before`: strict comparison of instants at full
nanosecond precision (`UTC()` only changes the display location,
not the instant). -/
def timeBefore (t u : Int) : Bool := t < u

/-- The role-requirement loop of `jwtClaimsCheck` (source lines
170-181): every OR-group in `roles` must contain at least one of the
token's roles; the first unsatisfied group fails with `Forbidden`
naming the group's members. -/
def jwtRolesCheck (claimRoles : List String) :
    List (List String) → Except ServErr Unit
  | [] => .ok ()
  | query :: roles =>
    match ContainsAny claimRoles query with
    | none =>
      .error (.Forbidden
        ("missing role: at least one of " ++ goJoin query ", " ++
          " is required"))
    | some _ => jwtRolesCheck claimRoles roles

/-- Source `jwtClaimsCheck`: issuer, token use, expiry (against the
current instant `now`, in nanoseconds), client ID (branching on the
token use), then the role requirement. -/
def jwtClaimsCheck (claims : JWTClaims) (issuer tokenUse : String)
    (clientIDs : List String) (roles : List (List String)) (now : Int) :
    Except ServErr Unit :=
  if claims.Iss ≠ issuer then
    .error (.Unautorized "invalid JWT issuer")
  else if claims.TokenUse ≠ tokenUse then
    .error (.Unautorized "invalid JWT use")
  else if timeBefore (timeUnix claims.Exp) now then
    .error (.Unautorized "expired JWT")
  else if tokenUse = TokenUseAccess then
    if claims.ClientID ∉ clientIDs then
      .error (.Unautorized "invalid client ID")
    else jwtRolesCheck claims.Roles roles
  else if tokenUse = TokenUseID then
    if claims.Aud ∉ clientIDs then
      .error (.Unautorized "invalid client ID")
    else jwtRolesCheck claims.Roles roles
  else
    .error (.Unautorized "invalid token use")

/-- Observable collaborator interactions of one `JWTRS256Assert` call:
how many times `jwks.Fetch` was invoked, the kid of each `jwks.Key`
lookup in order, and the message strings hashed for signature
verification (`h.Write([]byte(msg))`). -/
structure AssertTrace where
  fetchCalls : Nat
  lookupKids : List String
  verifyMsgs : List String
deriving DecidableEq, Repr

/-- Tail of `JWTRS256Assert` after the verifying key is resolved
(source lines 220-243): build the signing input `ehead ++ "." ++
eclaims`, hash it, base64url-decode the signature, run the RSA
PKCS#1v1.5 check (the `verifyPKCS1v15` oracle stands for
`sha256` + `rsa.VerifyPKCS1v15`), then decode and check the claims
(`jsonClaims` stands for `json.Unmarshal` into `JWTClaims`). -/
def jwtVerifyStage
    (jsonClaims : List Nat → Option JWTClaims)
    (verifyPKCS1v15 : RSAPub → String → List Nat → Bool)
    (pub : RSAPub) (ehead eclaims esig : String)
    (issuer tokenUse : String) (clientIDs : List String)
    (roles : List (List String)) (now : Int) (tr : AssertTrace) :
    Except ServErr Unit × AssertTrace :=
  let msg := ehead ++ "." ++ eclaims
  let tr' : AssertTrace := ⟨tr.fetchCalls, tr.lookupKids, tr.verifyMsgs ++ [msg]⟩
  match rawURLDecode esig with
  | none => (.error (.Unautorized "invalid JWT signature format"), tr')
  | some sig =>
    if ¬verifyPKCS1v15 pub msg sig then
      (.error (.Unautorized "invalid JWT signature"), tr')
    else
      match rawURLDecode eclaims with
      | none => (.error (.Unautorized "invalid JWT claims encoding"), tr')
      | some jclaims =>
        match jsonClaims jclaims with
        | none => (.error (.Unautorized "invalid JWT claims format"), tr')
        | some claims =>
          (jwtClaimsCheck claims issuer tokenUse clientIDs roles now, tr')

/-- Source `JWTRS256Assert`: split the token, decode the header
(`jsonHeader` stands for `json.Unmarshal` into `jwtHeader`), require
RS256, resolve the verifying key from the cache with a single
re-fetch-and-retry on miss (`resp` is the HTTP collaborator's
response to that one possible `Fetch`), then verify the signature and
check the claims.  Returns the result together with the trace of
collaborator interactions. -/
def JWTRS256Assert
    (jsonHeader : List Nat → Option jwtHeader)
    (jsonClaims : List Nat → Option JWTClaims)
    (verifyPKCS1v15 : RSAPub → String → List Nat → Bool)
    (keys : KeySet) (resp : Except String (Nat × List jwkt))
    (jwt : String) (issuer tokenUse : String)
    (clientIDs : List String) (roles : List (List String)) (now : Int) :
    Except ServErr Unit × AssertTrace :=
  match goSplit jwt '.' with
  | [ehead, eclaims, esig] =>
    (match rawURLDecode ehead with
    | none => (.error (.Unautorized "invalid JWT header encoding"), ⟨0, [], []⟩)
    | some jhead =>
      match jsonHeader jhead with
      | none => (.error (.Unautorized "invalid JWT header format"), ⟨0, [], []⟩)
      | some head =>
        if head.Alg ≠ "RS256" then
          (.error (.Unautorized "unsupported JWT signature algorithm"), ⟨0, [], []⟩)
        else
          match JWKS.Key keys head.Kid with
          | some pub =>
            jwtVerifyStage jsonClaims verifyPKCS1v15 pub ehead eclaims esig
              issuer tokenUse clientIDs roles now ⟨0, [head.Kid], []⟩
          | none =>
            match JWKS.Fetch keys resp with
            | (.error err, _) =>
              (.error (.Unautorized err), ⟨1, [head.Kid], []⟩)
            | (.ok _, keys') =>
              match JWKS.Key keys' head.Kid with
              | none =>
                (.error (.Unautorized "JWKS kid is not found"),
                  ⟨1, [head.Kid, head.Kid], []⟩)
              | some pub =>
                jwtVerifyStage jsonClaims verifyPKCS1v15 pub ehead eclaims esig
                  issuer tokenUse clientIDs roles now
                  ⟨1, [head.Kid, head.Kid], []⟩)
  | _ => (.error (.Unautorized "invalid JWT format"), ⟨0, [], []⟩)

/-- Source `JWTDecodeClaims`: unverified decode of the claims segment
(`jsonClaims` stands for `json.Unmarshal` into `JWTClaims`). -/
def JWTDecodeClaims (jsonClaims : List Nat → Option JWTClaims)
    (jwt : String) : Except String JWTClaims :=
  match goSplit jwt '.' with
  | [_, eclaims, _] =>
    (match rawURLDecode eclaims with
    | none => .error "illegal base64 data"
    | some jstr =>
      match jsonClaims jstr with
      | none => .error "invalid JWT claims"
      | some claims => .ok claims)
  | _ => .error "invalid JWT format"

/-- One atomic action of an in-progress `Fetch`, at the granularity
relevant to readers: processing one JWK from the response body
(which only touches the fetch's local `keys` buffer, source lines
91-101) or publishing the built mapping under the write lock
(`c.keys = keys`, a single reference assignment, source line 107). -/
inductive FetchStep where
  | decodeKey (jwk : jwkt)
  | publish
deriving DecidableEq, Repr

/-- State shared between one fetching thread and any number of
readers: the cache's published mapping (read by `Key` under the read
lock) and the fetching thread's local buffer. -/
structure FetchMach where
  shared : KeySet
  buffer : KeySet
deriving DecidableEq, Repr

/-- Effect of one atomic fetch action on the machine state. -/
def fetchStep (m : FetchMach) : FetchStep → FetchMach
  | .decodeKey jwk => ⟨m.shared, insertJWK m.buffer jwk⟩
  | .publish => ⟨m.buffer, m.buffer⟩

/-- The sequence of atomic actions a successful `Fetch` of the key
list `ks` performs: decode each key into the local buffer, then
publish once. -/
def fetchProg (ks : List jwkt) : List FetchStep :=
  ks.map .decodeKey ++ [.publish]

/-- Run a sequence of fetch actions from a machine state. -/
def runFetch (m : FetchMach) (steps : List FetchStep) : FetchMach :=
  steps.foldl fetchStep m

/-! ## Helper lemmas -/

theorem ContainsAny_eq_none_iff (set query : List String) :
    ContainsAny set query = none ↔ ∀ q ∈ query, q ∉ set := by
  induction query with
  | nil => simp [ContainsAny]
  | cons q qs ih =>
    by_cases h : q ∈ set <;> simp [ContainsAny, h, ih]

theorem ContainsAny_eq_some (set query : List String) (r : String)
    (h : ContainsAny set query = some r) : r ∈ query ∧ r ∈ set := by
  induction query with
  | nil => simp [ContainsAny] at h
  | cons q qs ih =>
    by_cases hq : q ∈ set
    · simp [ContainsAny, hq] at h
      subst h
      exact ⟨by simp, hq⟩
    · simp [ContainsAny, hq] at h
      rcases ih h with ⟨h1, h2⟩
      exact ⟨by simp [h1], h2⟩

theorem jwtRolesCheck_ok_iff (cr : List String) (roles : List (List String)) :
    jwtRolesCheck cr roles = .ok () ↔ ∀ g ∈ roles, ∃ r ∈ g, r ∈ cr := by
  induction roles with
  | nil => simp [jwtRolesCheck]
  | cons g gs ih =>
    rcases hC : ContainsAny cr g with _ | r
    · have hnone := (ContainsAny_eq_none_iff cr g).1 hC
      simp only [jwtRolesCheck, hC]
      constructor
      · intro h
        simp at h
      · intro h
        rcases h g (by simp) with ⟨r, hrg, hrc⟩
        exact absurd hrc (hnone r hrg)
    · have ⟨hrg, hrc⟩ := ContainsAny_eq_some cr g r hC
      simp only [jwtRolesCheck, hC, ih, List.forall_mem_cons]
      constructor
      · intro h
        exact ⟨⟨r, hrg, hrc⟩, h⟩
      · intro h
        exact h.2

theorem jwtRolesCheck_first_fail (cr : List String)
    (pre : List (List String)) (g : List String) (post : List (List String))
    (hpre : ∀ g' ∈ pre, ∃ r ∈ g', r ∈ cr)
    (hg : ∀ r ∈ g, r ∉ cr) :
    jwtRolesCheck cr (pre ++ g :: post) =
      .error (.Forbidden ("missing role: at least one of " ++
        goJoin g ", " ++ " is required")) := by
  induction pre with
  | nil =>
    have hC : ContainsAny cr g = none := (ContainsAny_eq_none_iff cr g).2 hg
    simp [jwtRolesCheck, hC]
  | cons p ps ih =>
    rcases hpre p (by simp) with ⟨r, hrg, hrc⟩
    have hC : ∃ x, ContainsAny cr p = some x := by
      rcases hCn : ContainsAny cr p with _ | x
      · exact absurd hrc ((ContainsAny_eq_none_iff cr p).1 hCn r hrg)
      · exact ⟨x, rfl⟩
    rcases hC with ⟨x, hx⟩
    simp only [List.cons_append, jwtRolesCheck, hx]
    exact ih fun g' hg' => hpre g' (by simp [hg'])

theorem jwtRolesCheck_ok_or_forbidden (cr : List String)
    (roles : List (List String)) :
    jwtRolesCheck cr roles = .ok () ∨
      ∃ m, jwtRolesCheck cr roles = .error (.Forbidden m) := by
  induction roles with
  | nil => left; rfl
  | cons g gs ih =>
    rcases hC : ContainsAny cr g with _ | r
    · right
      refine ⟨"missing role: at least one of " ++ goJoin g ", " ++
        " is required", ?_⟩
      simp [jwtRolesCheck, hC]
    · simpa [jwtRolesCheck, hC] using ih

theorem jwtClaimsCheck_reduce (claims : JWTClaims) (issuer tokenUse : String)
    (clientIDs : List String) (roles : List (List String)) (now : Int)
    (hIss : claims.Iss = issuer) (hUse : claims.TokenUse = tokenUse)
    (hExp : timeBefore (timeUnix claims.Exp) now = false)
    (hCid : tokenUse = TokenUseAccess ∧ claims.ClientID ∈ clientIDs ∨
            tokenUse = TokenUseID ∧ claims.Aud ∈ clientIDs) :
    jwtClaimsCheck claims issuer tokenUse clientIDs roles now =
      jwtRolesCheck claims.Roles roles := by
  rcases hCid with ⟨hT, hc⟩ | ⟨hT, hc⟩
  · subst hT
    simp [jwtClaimsCheck, hIss, hUse, hExp, hc]
  · subst hT
    simp [jwtClaimsCheck, hIss, hUse, hExp, hc, TokenUseAccess, TokenUseID]

/-! ## Claim theorems -/

/-- C2: for every claims record and policy that pass the issuer,
token-use, expiry and client-id checks, the claims check succeeds iff
every OR-group in the policy's role-group list contains at least one
role present in the token's roles (an empty role-group list therefore
imposes no constraint), and when some group is unsatisfied the check
returns a `Forbidden` error naming the members of the first
unsatisfied group in the supplied order. -/
theorem C2_role_or_groups (claims : JWTClaims) (issuer tokenUse : String)
    (clientIDs : List String) (roles : List (List String)) (now : Int)
    (hIss : claims.Iss = issuer) (hUse : claims.TokenUse = tokenUse)
    (hExp : timeBefore (timeUnix claims.Exp) now = false)
    (hCid : tokenUse = TokenUseAccess ∧ claims.ClientID ∈ clientIDs ∨
            tokenUse = TokenUseID ∧ claims.Aud ∈ clientIDs) :
    (jwtClaimsCheck claims issuer tokenUse clientIDs roles now = .ok () ↔
      ∀ g ∈ roles, ∃ r ∈ g, r ∈ claims.Roles) ∧
    (∀ pre g post, roles = pre ++ g :: post →
      (∀ g' ∈ pre, ∃ r ∈ g', r ∈ claims.Roles) →
      (∀ r ∈ g, r ∉ claims.Roles) →
      jwtClaimsCheck claims issuer tokenUse clientIDs roles now =
        .error (.Forbidden ("missing role: at least one of " ++
          goJoin g ", " ++ " is required"))) := by
  constructor
  · rw [jwtClaimsCheck_reduce claims issuer tokenUse clientIDs roles now
      hIss hUse hExp hCid]
    exact jwtRolesCheck_ok_iff claims.Roles roles
  · intro pre g post hr hpre hg
    subst hr
    rw [jwtClaimsCheck_reduce claims issuer tokenUse clientIDs _ now
      hIss hUse hExp hCid]
    exact jwtRolesCheck_first_fail claims.Roles pre g post hpre hg

/-- Witness for C2: role groups `[{admin,owner},{billing}]` with token
roles `[admin]` fail `Forbidden` naming the `billing` group. -/
theorem C2_role_or_groups_witness :
    jwtClaimsCheck
      ⟨"https://issuer.example", "access", 100, "client-1", ["admin"], "", ""⟩
      "https://issuer.example" "access" ["client-1"]
      [["admin", "owner"], ["billing"]] (100 * 1000000000) =
      .error (.Forbidden "missing role: at least one of billing is required") := by
  have h := (C2_role_or_groups
    ⟨"https://issuer.example", "access", 100, "client-1", ["admin"], "", ""⟩
    "https://issuer.example" "access" ["client-1"]
    [["admin", "owner"], ["billing"]] (100 * 1000000000)
    rfl rfl (by decide) (Or.inl ⟨rfl, by decide⟩)).2
    [["admin", "owner"]] ["billing"] [] rfl (by decide) (by decide)
  have hs : "missing role: at least one of " ++ goJoin ["billing"] ", " ++
      " is required" = "missing role: at least one of billing is required" := by
    decide
  rw [hs] at h
  exact h

/-- C10: for every claims record and policy that pass the issuer,
token-use, expiry and client-id checks, a policy whose role-group list
contains an empty OR-group makes the claims check return a `Forbidden`
error regardless of the token's roles: an empty group is
unsatisfiable, not vacuously satisfied. -/
theorem C10_empty_group_unsatisfiable (claims : JWTClaims)
    (issuer tokenUse : String) (clientIDs : List String)
    (roles : List (List String)) (now : Int)
    (hIss : claims.Iss = issuer) (hUse : claims.TokenUse = tokenUse)
    (hExp : timeBefore (timeUnix claims.Exp) now = false)
    (hCid : tokenUse = TokenUseAccess ∧ claims.ClientID ∈ clientIDs ∨
            tokenUse = TokenUseID ∧ claims.Aud ∈ clientIDs)
    (hempty : [] ∈ roles) :
    ∃ m, jwtClaimsCheck claims issuer tokenUse clientIDs roles now =
      .error (.Forbidden m) := by
  have hred := jwtClaimsCheck_reduce claims issuer tokenUse clientIDs roles now
    hIss hUse hExp hCid
  rcases jwtRolesCheck_ok_or_forbidden claims.Roles roles with hok | ⟨m, hm⟩
  · exfalso
    rcases (jwtRolesCheck_ok_iff _ _).1 hok [] hempty with ⟨r, hr, _⟩
    simp at hr
  · exact ⟨m, by rw [hred]; exact hm⟩

/-- Witness for C10: a policy with the single empty role group rejects
a token carrying the `admin` role with a `Forbidden` error. -/
theorem C10_empty_group_unsatisfiable_witness :
    ∃ m, jwtClaimsCheck
      ⟨"https://issuer.example", "access", 100, "client-1", ["admin"], "", ""⟩
      "https://issuer.example" "access" ["client-1"] [[]]
      (100 * 1000000000) = .error (.Forbidden m) :=
  C10_empty_group_unsatisfiable
    ⟨"https://issuer.example", "access", 100, "client-1", ["admin"], "", ""⟩
    "https://issuer.example" "access" ["client-1"] [[]] (100 * 1000000000)
    rfl rfl (by decide) (Or.inl ⟨rfl, by decide⟩) (by decide)

/-- C7 counterexample: with expiry 100 s and current instant
100 s + 1 ns, the current whole second equals the expiry (so under the
claim's whole-second comparison the token would not be expired), yet
the check rejects with "expired JWT": `time.Now()` is not normalized
to whole seconds. -/
theorem C7_counterexample :
    jwtClaimsCheck ⟨"i", "access", 100, "c", [], "", ""⟩ "i" "access" ["c"] []
      100000000001 = .error (.Unautorized "expired JWT") ∧
    (100000000001 : Int) / 1000000000 = 100 := by decide

/-- C7 as amended: for claims passing the issuer and token-use checks,
the check rejects with "expired JWT" exactly when the expiry instant
(a whole-second instant) is strictly before the current instant at
full nanosecond precision; only the expiry is a whole-second value,
the current time is not normalized. -/
theorem C7_expiry_nanosecond (claims : JWTClaims) (issuer tokenUse : String)
    (clientIDs : List String) (roles : List (List String)) (now : Int)
    (hIss : claims.Iss = issuer) (hUse : claims.TokenUse = tokenUse) :
    jwtClaimsCheck claims issuer tokenUse clientIDs roles now =
      .error (.Unautorized "expired JWT") ↔
      claims.Exp * 1000000000 < now := by
  unfold jwtClaimsCheck
  rw [if_neg (by simp [hIss]), if_neg (by simp [hUse])]
  by_cases hlt : claims.Exp * 1000000000 < now
  · have hb : timeBefore (timeUnix claims.Exp) now = true := by
      simp [timeBefore, timeUnix]
      exact hlt
    simp [hb, hlt]
  · have hb : timeBefore (timeUnix claims.Exp) now = false := by
      simp [timeBefore, timeUnix]
      exact Int.not_lt.1 hlt
    rw [hb]
    simp only [Bool.false_eq_true, if_false]
    constructor
    · intro h
      exfalso
      split_ifs at h <;>
        first
          | simp at h
          | (rcases jwtRolesCheck_ok_or_forbidden claims.Roles roles with
              hok | ⟨m, hm⟩
             · rw [hok] at h
               simp at h
             · rw [hm] at h
               simp at h)
    · intro h
      exact absurd h hlt

/-- Witness for C7 as amended: an expiry one second in the past is
rejected with "expired JWT". -/
theorem C7_expiry_nanosecond_witness :
    jwtClaimsCheck ⟨"i", "access", 100, "c", [], "", ""⟩ "i" "access" ["c"] []
      (101 * 1000000000) = .error (.Unautorized "expired JWT") :=
  (C7_expiry_nanosecond ⟨"i", "access", 100, "c", [], "", ""⟩ "i" "access"
    ["c"] [] (101 * 1000000000) rfl rfl).mpr (by decide)

/-- C5: whenever the fetch fails (transport error, non-200 status, or
empty decoded key set) the cache's key mapping is left exactly as it
was; a successful fetch replaces it wholesale with the mapping built
from the response body, independently of the previous mapping. -/
theorem C5_failed_fetch_preserves_keys (keys : KeySet)
    (resp : Except String (Nat × List jwkt)) :
    (∀ e, (JWKS.Fetch keys resp).1 = .error e →
      (JWKS.Fetch keys resp).2 = keys) ∧
    ((JWKS.Fetch keys resp).1 = .ok () →
      ∃ ks, resp = .ok (200, ks) ∧
        (JWKS.Fetch keys resp).2 = buildKeys ks) := by
  rcases resp with e | ⟨status, ks⟩
  · constructor
    · intro e' _
      simp [JWKS.Fetch]
    · intro h
      simp [JWKS.Fetch] at h
  · by_cases hs : status = 200
    · subst hs
      by_cases hk : (buildKeys ks).length = 0
      · constructor
        · intro e' _
          simp [JWKS.Fetch, hk]
        · intro h
          simp [JWKS.Fetch, hk] at h
      · constructor
        · intro e' he
          simp [JWKS.Fetch, hk] at he
        · intro _
          exact ⟨ks, rfl, by simp [JWKS.Fetch, hk]⟩
    · constructor
      · intro e' _
        simp [JWKS.Fetch, hs]
      · intro h
        simp [JWKS.Fetch, hs] at h

/-- Witness for C5: a transport error leaves the previous one-key
mapping intact. -/
theorem C5_failed_fetch_preserves_keys_witness :
    (JWKS.Fetch [("k", ⟨5, 3⟩)] (.error "connection refused")).2 =
      [("k", ⟨5, 3⟩)] :=
  (C5_failed_fetch_preserves_keys [("k", ⟨5, 3⟩)]
    (.error "connection refused")).1 "connection refused" (by decide)

/-- C6: the fetch fails iff the transport call errors, the HTTP status
is not 200, or the set of successfully decoded RSA keys is empty; an
individual key that is non-RSA or fails RSA decoding is skipped, so a
mixed response succeeds as long as one key decodes. -/
theorem C6_fetch_failure_conditions (keys : KeySet)
    (resp : Except String (Nat × List jwkt)) :
    (∀ m, resp = .error m → (JWKS.Fetch keys resp).1 = .error m) ∧
    (∀ status ks, resp = .ok (status, ks) →
      ((JWKS.Fetch keys resp).1 = .ok () ↔
        status = 200 ∧ buildKeys ks ≠ [])) := by
  constructor
  · intro m h
    subst h
    rfl
  · intro status ks h
    subst h
    by_cases hs : status = 200
    · subst hs
      by_cases hk : buildKeys ks = []
      · simp [JWKS.Fetch, List.length_eq_zero, hk]
      · simp [JWKS.Fetch, List.length_eq_zero, hk]
    · simp [JWKS.Fetch, hs]

/-- Witness for C6: a 200 response mixing one valid RSA key, one RSA
key with a malformed exponent encoding, and one non-RSA key succeeds:
the malformed and non-RSA keys are skipped. -/
theorem C6_fetch_failure_conditions_witness :
    (JWKS.Fetch [] (.ok (200, [⟨"k1", "RSA", "RS256", "AQ", "AQAB"⟩,
      ⟨"k2", "RSA", "RS256", "AQ", "!"⟩,
      ⟨"k3", "EC", "ES256", "AQ", "AQAB"⟩]))).1 = .ok () :=
  ((C6_fetch_failure_conditions [] (.ok (200,
    [⟨"k1", "RSA", "RS256", "AQ", "AQAB"⟩,
     ⟨"k2", "RSA", "RS256", "AQ", "!"⟩,
     ⟨"k3", "EC", "ES256", "AQ", "AQAB"⟩]))).2 200
    [⟨"k1", "RSA", "RS256", "AQ", "AQAB"⟩,
     ⟨"k2", "RSA", "RS256", "AQ", "!"⟩,
     ⟨"k3", "EC", "ES256", "AQ", "AQAB"⟩] rfl).mpr ⟨rfl, by decide⟩

theorem b64Val_lt (c : Char) (x : Nat) (h : b64Val c = some x) : x < 64 := by
  simp only [b64Val] at h
  split_ifs at h <;> simp_all <;> omega

theorem b64Quanta_lt (l : List Char) (bs : List Nat)
    (h : b64Quanta l = some bs) : ∀ b ∈ bs, b < 256 := by
  induction l using b64Quanta.induct generalizing bs with
  | case1 =>
    simp only [b64Quanta, Option.some.injEq] at h
    subst h
    simp
  | case2 c =>
    simp [b64Quanta] at h
  | case3 a b =>
    simp only [b64Quanta, Option.bind_eq_bind, Option.bind_eq_some] at h
    rcases h with ⟨x, hx, y, hy, h⟩
    have := b64Val_lt a x hx
    have := b64Val_lt b y hy
    simp only [Option.some.injEq] at h
    subst h
    intro v hv
    simp at hv
    omega
  | case4 a b c =>
    simp only [b64Quanta, Option.bind_eq_bind, Option.bind_eq_some] at h
    rcases h with ⟨x, hx, y, hy, z, hz, h⟩
    have := b64Val_lt a x hx
    have := b64Val_lt b y hy
    have := b64Val_lt c z hz
    simp only [Option.some.injEq] at h
    subst h
    intro v hv
    simp at hv
    rcases hv with h1 | h2 <;> omega
  | case5 a b c d rest ih =>
    simp only [b64Quanta, Option.bind_eq_bind, Option.bind_eq_some] at h
    rcases h with ⟨x, hx, y, hy, z, hz, w, hw, tail, htail, h⟩
    have := b64Val_lt a x hx
    have := b64Val_lt b y hy
    have := b64Val_lt c z hz
    have := b64Val_lt d w hw
    have hrec := ih tail htail
    simp only [Option.some.injEq] at h
    subst h
    intro v hv
    simp at hv
    rcases hv with h1 | h2 | h3 | h4
    · omega
    · omega
    · omega
    · exact hrec v h4

theorem rawURLDecode_lt (s : String) (bs : List Nat)
    (h : rawURLDecode s = some bs) : ∀ b ∈ bs, b < 256 :=
  b64Quanta_lt _ bs h

theorem beBytesToNat_lt (bs : List Nat) (hb : ∀ b ∈ bs, b < 256) :
    beBytesToNat bs < 256 ^ bs.length := by
  suffices h : ∀ acc, acc * 256 ^ bs.length ≤
      bs.foldl (fun acc b => acc * 256 + b) acc ∧
      bs.foldl (fun acc b => acc * 256 + b) acc < (acc + 1) * 256 ^ bs.length by
    have := (h 0).2
    simpa [beBytesToNat] using this
  induction bs with
  | nil => intro acc; simp
  | cons b rest ih =>
    intro acc
    have hblt : b < 256 := hb b (by simp)
    have hrest : ∀ b' ∈ rest, b' < 256 := fun b' h' => hb b' (by simp [h'])
    have h1 := (ih hrest (acc * 256 + b)).1
    have h2 := (ih hrest (acc * 256 + b)).2
    constructor
    · calc acc * 256 ^ (b :: rest).length
          = acc * 256 * 256 ^ rest.length := by
            rw [List.length_cons, pow_succ]
            ring
      _ ≤ (acc * 256 + b) * 256 ^ rest.length := by
          have : acc * 256 ≤ acc * 256 + b := Nat.le_add_right _ _
          exact Nat.mul_le_mul_right _ this
      _ ≤ rest.foldl (fun acc b => acc * 256 + b) (acc * 256 + b) := h1
      _ = (b :: rest).foldl (fun acc b => acc * 256 + b) acc := by simp
    · calc (b :: rest).foldl (fun acc b => acc * 256 + b) acc
          = rest.foldl (fun acc b => acc * 256 + b) (acc * 256 + b) := by simp
      _ < (acc * 256 + b + 1) * 256 ^ rest.length := h2
      _ ≤ (acc + 1) * 256 * 256 ^ rest.length := by
          have : acc * 256 + b + 1 ≤ (acc + 1) * 256 := by omega
          exact Nat.mul_le_mul_right _ this
      _ = (acc + 1) * 256 ^ (b :: rest).length := by
          rw [List.length_cons, pow_succ]
          ring

theorem beBytesToNat_zero_cons (bs : List Nat) :
    beBytesToNat (0 :: bs) = beBytesToNat bs := by
  simp [beBytesToNat]

theorem jwkToRSA_e64 (jwk : jwkt) (nb eb : List Nat)
    (hn : rawURLDecode jwk.N = some nb)
    (he : rawURLDecode jwk.E = some eb) :
    jwkToRSA jwk =
      if beBytesToNat eb % 2 ^ 64 > 2 ^ 32 - 1 then
        .error "JWK exponent too large"
      else .ok ⟨beBytesToNat nb, beBytesToNat eb % 2 ^ 64⟩ := by
  have hbytes := rawURLDecode_lt jwk.E eb he
  have hlt : beBytesToNat eb < 256 ^ eb.length := beBytesToNat_lt eb hbytes
  have hE : (match eb.length with
      | 3 => beBytesToNat (0 :: eb)
      | 4 => beBytesToNat eb
      | _ => beBytesToNat eb % 2 ^ 64) = beBytesToNat eb % 2 ^ 64 := by
    split
    · rename_i heq
      rw [heq] at hlt
      norm_num at hlt
      rw [beBytesToNat_zero_cons]
      omega
    · rename_i heq
      rw [heq] at hlt
      norm_num at hlt
      omega
    · rfl
  unfold jwkToRSA
  rw [hn, he]
  simp only [hE]

/-- C4 counterexample: a 9-byte exponent of value 2^64 + 3 (greater
than 2^32 − 1) does not fail — `big.Int.Uint64` keeps only the low 64
bits, so it decodes successfully to exponent 3. -/
theorem C4_counterexample :
    jwkToRSA ⟨"k1", "RSA", "RS256", "AQ", "AQAAAAAAAAAD"⟩ = .ok ⟨1, 3⟩ ∧
    rawURLDecode "AQAAAAAAAAAD" = some [1, 0, 0, 0, 0, 0, 0, 0, 3] ∧
    2 ^ 32 - 1 < beBytesToNat [1, 0, 0, 0, 0, 0, 0, 0, 3] := by decide

/-- C4 as amended: whatever the exponent's byte length, the decoder
interprets it as the low 64 bits of its big-endian value (for 3 and 4
bytes this is the value itself, the 3-byte case via a leading zero
byte), succeeds with that exponent when it fits in 32 bits, and fails
with a decode error exactly when that 64-bit truncation exceeds
2^32 − 1; an exponent of 5 to 8 bytes whose value exceeds 2^32 − 1
therefore fails, but one of 9 or more bytes is truncated first. -/
theorem C4_exponent_decoding (jwk : jwkt) (nb eb : List Nat)
    (hn : rawURLDecode jwk.N = some nb)
    (he : rawURLDecode jwk.E = some eb) :
    (beBytesToNat eb % 2 ^ 64 ≤ 2 ^ 32 - 1 →
      jwkToRSA jwk = .ok ⟨beBytesToNat nb, beBytesToNat eb % 2 ^ 64⟩) ∧
    (2 ^ 32 - 1 < beBytesToNat eb % 2 ^ 64 →
      jwkToRSA jwk = .error "JWK exponent too large") := by
  rw [jwkToRSA_e64 jwk nb eb hn he]
  constructor
  · intro h
    rw [if_neg (by omega)]
  · intro h
    rw [if_pos h]

/-- Witness for C4 as amended: the 3-byte exponent `0x010001`
(base64url "AQAB") and the 4-byte exponent `0x00010001` (base64url
"AAEAAQ") both decode to 65537. -/
theorem C4_exponent_decoding_witness :
    jwkToRSA ⟨"k1", "RSA", "RS256", "AQ", "AQAB"⟩ = .ok ⟨1, 65537⟩ ∧
    jwkToRSA ⟨"k2", "RSA", "RS256", "AQ", "AAEAAQ"⟩ = .ok ⟨1, 65537⟩ := by
  constructor
  · exact ((C4_exponent_decoding ⟨"k1", "RSA", "RS256", "AQ", "AQAB"⟩
      [1] [1, 0, 1] (by decide) (by decide)).1 (by decide)).trans (by decide)
  · exact ((C4_exponent_decoding ⟨"k2", "RSA", "RS256", "AQ", "AAEAAQ"⟩
      [1] [0, 1, 0, 1] (by decide) (by decide)).1 (by decide)).trans (by decide)

theorem jwtVerifyStage_trace (jsonC : List Nat → Option JWTClaims)
    (vrf : RSAPub → String → List Nat → Bool) (pub : RSAPub)
    (ehead eclaims esig issuer tokenUse : String) (clientIDs : List String)
    (roles : List (List String)) (now : Int) (tr : AssertTrace) :
    (jwtVerifyStage jsonC vrf pub ehead eclaims esig issuer tokenUse
      clientIDs roles now tr).2 =
      ⟨tr.fetchCalls, tr.lookupKids,
        tr.verifyMsgs ++ [ehead ++ "." ++ eclaims]⟩ := by
  simp only [jwtVerifyStage]
  repeat' split
  all_goals rfl

theorem jwtClaimsCheck_not_format (claims : JWTClaims)
    (issuer tokenUse : String) (clientIDs : List String)
    (roles : List (List String)) (now : Int) :
    jwtClaimsCheck claims issuer tokenUse clientIDs roles now ≠
      .error (.Unautorized "invalid JWT format") := by
  unfold jwtClaimsCheck
  split_ifs <;>
    first
      | (intro h
         simp at h)
      | (intro h
         rcases jwtRolesCheck_ok_or_forbidden claims.Roles roles with
           hok | ⟨m, hm⟩
         · rw [hok] at h
           simp at h
         · rw [hm] at h
           simp at h)

theorem jwtVerifyStage_not_format (jsonC : List Nat → Option JWTClaims)
    (vrf : RSAPub → String → List Nat → Bool) (pub : RSAPub)
    (ehead eclaims esig issuer tokenUse : String) (clientIDs : List String)
    (roles : List (List String)) (now : Int) (tr : AssertTrace) :
    (jwtVerifyStage jsonC vrf pub ehead eclaims esig issuer tokenUse
      clientIDs roles now tr).1 ≠
      .error (.Unautorized "invalid JWT format") := by
  simp only [jwtVerifyStage]
  repeat' split
  all_goals
    first
      | exact jwtClaimsCheck_not_format _ _ _ _ _ _
      | simp

theorem status_msg_not_format (x : String) :
    "JWKS fetch: expected 200, got " ++ x ≠ "invalid JWT format" := by
  intro h
  have hl := congrArg String.length h
  rw [String.length_append] at hl
  have h1 : ("JWKS fetch: expected 200, got " : String).length = 30 := by
    decide
  have h2 : ("invalid JWT format" : String).length = 18 := by decide
  omega

theorem JWKS.Fetch_error_not_format (keys : KeySet)
    (resp : Except String (Nat × List jwkt)) (m : String) (ks' : KeySet)
    (hresp : ∀ m', resp = .error m' → m' ≠ "invalid JWT format")
    (h : JWKS.Fetch keys resp = (.error m, ks')) :
    m ≠ "invalid JWT format" := by
  rcases resp with e | ⟨status, ks⟩
  · simp only [JWKS.Fetch, Prod.mk.injEq, Except.error.injEq] at h
    rw [← h.1]
    exact hresp e rfl
  · simp only [JWKS.Fetch] at h
    split at h
    · simp only [Prod.mk.injEq, Except.error.injEq] at h
      rw [← h.1]
      exact status_msg_not_format (toString status)
    · split at h
      · simp only [Prod.mk.injEq, Except.error.injEq] at h
        rw [← h.1]
        decide
      · simp at h

theorem runFetch_decodes (ks : List jwkt) (init buf : KeySet) :
    runFetch ⟨init, buf⟩ (ks.map .decodeKey) =
      ⟨init, ks.foldl insertJWK buf⟩ := by
  induction ks generalizing buf with
  | nil => rfl
  | cons k rest ih =>
    simp only [List.map_cons, List.foldl_cons, runFetch, List.foldl,
      fetchStep] at *
    exact ih (insertJWK buf k)

/-- C9: at every interleaving point of an in-progress fetch — after
any prefix of its atomic actions — the published mapping a concurrent
`lookup` reads is either the entire previous mapping or the entire
newly built one, never a mixture: keys are accumulated in the fetch's
local buffer and published by a single swap under the write lock. -/
theorem C9_atomic_swap (ks : List jwkt) (init : KeySet) (i : Nat) :
    (runFetch ⟨init, []⟩ ((fetchProg ks).take i)).shared = init ∨
    (runFetch ⟨init, []⟩ ((fetchProg ks).take i)).shared = buildKeys ks := by
  by_cases h : i ≤ ks.length
  · left
    have ht : (fetchProg ks).take i = (ks.take i).map .decodeKey := by
      unfold fetchProg
      rw [List.take_append_of_le_length (by simpa using h), List.map_take]
    rw [ht, runFetch_decodes]
  · right
    have h2 : (fetchProg ks).length ≤ i := by
      simp only [fetchProg, List.length_append, List.length_map,
        List.length_singleton]
      omega
    rw [List.take_of_length_le h2]
    unfold fetchProg runFetch
    rw [List.foldl_append]
    have hd := runFetch_decodes ks init []
    unfold runFetch at hd
    rw [hd]
    rfl

/-- C8: for every token splitting into segments `ehead`, `eclaims`,
`esig`, the byte sequence the RS256 signature check hashes and
verifies is exactly the original base64url header segment, a literal
period, and the original base64url claims segment — never the decoded
header or claims. -/
theorem C8_signing_input (jsonH : List Nat → Option jwtHeader)
    (jsonC : List Nat → Option JWTClaims)
    (vrf : RSAPub → String → List Nat → Bool)
    (keys : KeySet) (resp : Except String (Nat × List jwkt))
    (jwt issuer tokenUse : String) (clientIDs : List String)
    (roles : List (List String)) (now : Int) (ehead eclaims esig : String)
    (hsplit : goSplit jwt '.' = [ehead, eclaims, esig]) :
    ∀ m ∈ (JWTRS256Assert jsonH jsonC vrf keys resp jwt issuer tokenUse
      clientIDs roles now).2.verifyMsgs, m = ehead ++ "." ++ eclaims := by
  simp only [JWTRS256Assert, hsplit]
  repeat' split
  all_goals
    first
      | simp
      | (rw [jwtVerifyStage_trace]
         simp)

/-- Witness for C8: a concrete token whose key is cached hashes
exactly the first two original segments joined by a period. -/
theorem C8_signing_input_witness :
    (JWTRS256Assert (fun _ => some ⟨"RS256", "JWT", "k1"⟩) (fun _ => none)
      (fun _ _ _ => true) [("k1", ⟨1, 3⟩)] (.error "e") "AA.AA.AA" "i"
      "access" [] [] 0).2.verifyMsgs = ["AA.AA"] ∧
    ("AA.AA" : String) = "AA" ++ "." ++ "AA" :=
  ⟨by decide, C8_signing_input (fun _ => some ⟨"RS256", "JWT", "k1"⟩)
    (fun _ => none) (fun _ _ _ => true) [("k1", ⟨1, 3⟩)] (.error "e")
    "AA.AA.AA" "i" "access" [] [] 0 "AA" "AA" "AA" (by decide) "AA.AA"
    (by decide)⟩

/-- C1: for every token whose decoded header carries algorithm RS256
and a key id absent from the cache's current mapping, the orchestrator
invokes the cache's fetch exactly once; if the fetch errors it fails
`Unautorized` with that fetch error's message; if the fetch succeeds
it looks the key id up exactly once more, and if still missing it
fails `Unautorized "JWKS kid is not found"`. -/
theorem C1_single_refetch (jsonH : List Nat → Option jwtHeader)
    (jsonC : List Nat → Option JWTClaims)
    (vrf : RSAPub → String → List Nat → Bool)
    (keys : KeySet) (resp : Except String (Nat × List jwkt))
    (jwt issuer tokenUse : String) (clientIDs : List String)
    (roles : List (List String)) (now : Int)
    (ehead eclaims esig : String) (jhead : List Nat) (head : jwtHeader)
    (hsplit : goSplit jwt '.' = [ehead, eclaims, esig])
    (hdec : rawURLDecode ehead = some jhead)
    (hjson : jsonH jhead = some head)
    (halg : head.Alg = "RS256")
    (hmiss : JWKS.Key keys head.Kid = none) :
    (JWTRS256Assert jsonH jsonC vrf keys resp jwt issuer tokenUse clientIDs
      roles now).2.fetchCalls = 1 ∧
    (∀ m ks', JWKS.Fetch keys resp = (.error m, ks') →
      (JWTRS256Assert jsonH jsonC vrf keys resp jwt issuer tokenUse
        clientIDs roles now).1 = .error (.Unautorized m)) ∧
    (∀ ks', JWKS.Fetch keys resp = (.ok (), ks') →
      (JWTRS256Assert jsonH jsonC vrf keys resp jwt issuer tokenUse
        clientIDs roles now).2.lookupKids = [head.Kid, head.Kid] ∧
      (JWKS.Key ks' head.Kid = none →
        (JWTRS256Assert jsonH jsonC vrf keys resp jwt issuer tokenUse
          clientIDs roles now).1 =
          .error (.Unautorized "JWKS kid is not found"))) := by
  simp only [JWTRS256Assert, hsplit, hdec, hjson, halg, ne_eq,
    not_true_eq_false, if_false, hmiss]
  rcases hF : JWKS.Fetch keys resp with ⟨e | u, ks0⟩
  · refine ⟨rfl, ?_, ?_⟩
    · intro m ks' h
      simp only [Prod.mk.injEq, Except.error.injEq] at h
      rw [← h.1]
    · intro ks' h
      simp at h
  · refine ⟨?_, ?_, ?_⟩
    · rcases hK : JWKS.Key ks0 head.Kid with _ | pub
      · simp only [hK]
      · simp only [hK, jwtVerifyStage_trace]
    · intro m ks' h
      simp at h
    · intro ks' h
      simp only [Prod.mk.injEq] at h
      rw [← h.2]
      constructor
      · rcases hK : JWKS.Key ks0 head.Kid with _ | pub
        · simp only [hK]
        · simp only [hK, jwtVerifyStage_trace]
      · intro hK2
        simp only [hK2]

/-- Witness for C1: a cache miss with an erroring fetch performs
exactly one fetch and surfaces the fetch error as `Unautorized`. -/
theorem C1_single_refetch_witness :
    (JWTRS256Assert (fun _ => some ⟨"RS256", "JWT", "k1"⟩) (fun _ => none)
      (fun _ _ _ => false) [] (.error "connection refused") "AA.AA.AA" "i"
      "access" [] [] 0).2.fetchCalls = 1 ∧
    (JWTRS256Assert (fun _ => some ⟨"RS256", "JWT", "k1"⟩) (fun _ => none)
      (fun _ _ _ => false) [] (.error "connection refused") "AA.AA.AA" "i"
      "access" [] [] 0).1 = .error (.Unautorized "connection refused") := by
  have h := C1_single_refetch (fun _ => some ⟨"RS256", "JWT", "k1"⟩)
    (fun _ => none) (fun _ _ _ => false) [] (.error "connection refused")
    "AA.AA.AA" "i" "access" [] [] 0 "AA" "AA" "AA" [0] ⟨"RS256", "JWT", "k1"⟩
    (by decide) (by decide) rfl rfl rfl
  exact ⟨h.1, h.2.1 "connection refused" [] (by decide)⟩

/-- C3 counterexample: the token `"a..c"` has an empty middle segment
yet passes the three-segment format check; it is rejected later, at
header decoding, with "invalid JWT header encoding" rather than the
format error — regardless of the collaborator oracles, which are
never consulted on this path. -/
theorem C3_counterexample :
    (JWTRS256Assert (fun _ => none) (fun _ => none) (fun _ _ _ => false) []
      (.error "e") "a..c" "i" "access" [] [] 0).1 =
      .error (.Unautorized "invalid JWT header encoding") ∧
    ServErr.Unautorized "invalid JWT header encoding" ≠
      .Unautorized "invalid JWT format" := by decide

/-- C3 as amended: the verification pipeline fails with the format
error `"invalid JWT format"` exactly when the token does not split
into three dot-separated segments; the segments need not be non-empty
— a token with an empty segment passes the format check and can only
fail at a later stage (provided the transport error message is not
itself the format-error string, which would be surfaced verbatim on a
key miss). -/
theorem C3_format_error_iff (jsonH : List Nat → Option jwtHeader)
    (jsonC : List Nat → Option JWTClaims)
    (vrf : RSAPub → String → List Nat → Bool)
    (keys : KeySet) (resp : Except String (Nat × List jwkt))
    (jwt issuer tokenUse : String) (clientIDs : List String)
    (roles : List (List String)) (now : Int)
    (hresp : ∀ m, resp = .error m → m ≠ "invalid JWT format") :
    (JWTRS256Assert jsonH jsonC vrf keys resp jwt issuer tokenUse clientIDs
      roles now).1 = .error (.Unautorized "invalid JWT format") ↔
      (goSplit jwt '.').length ≠ 3 := by
  rcases hsp : goSplit jwt '.' with _ | ⟨a, _ | ⟨b, _ | ⟨c, _ | ⟨d, rest⟩⟩⟩⟩
  · simp [JWTRS256Assert, hsp]
  · simp [JWTRS256Assert, hsp]
  · simp [JWTRS256Assert, hsp]
  · simp only [JWTRS256Assert, hsp, List.length_cons, List.length_nil]
    constructor
    · intro h
      exfalso
      rcases hdec : rawURLDecode a with _ | jhead
      · simp [hdec] at h
      · simp only [hdec] at h
        rcases hjson : jsonH jhead with _ | head
        · simp [hjson] at h
        · simp only [hjson] at h
          by_cases halg : head.Alg = "RS256"
          · rw [if_neg (by simp [halg])] at h
            rcases hK : JWKS.Key keys head.Kid with _ | pub
            · simp only [hK] at h
              rcases hF : JWKS.Fetch keys resp with ⟨e | u, ks0⟩
              · simp only [hF, Except.error.injEq,
                  ServErr.Unautorized.injEq] at h
                exact JWKS.Fetch_error_not_format keys resp e ks0 hresp hF h
              · simp only [hF] at h
                rcases hK2 : JWKS.Key ks0 head.Kid with _ | pub
                · simp [hK2] at h
                · simp only [hK2] at h
                  exact jwtVerifyStage_not_format jsonC vrf pub a b c issuer
                    tokenUse clientIDs roles now ⟨1, [head.Kid, head.Kid], []⟩ h
            · simp only [hK] at h
              exact jwtVerifyStage_not_format jsonC vrf pub a b c issuer
                tokenUse clientIDs roles now ⟨0, [head.Kid], []⟩ h
          · rw [if_pos (by simp [halg])] at h
            simp at h
    · intro h
      omega
  · simp only [JWTRS256Assert, hsp, List.length_cons]
    constructor
    · intro _
      omega
    · intro _
      trivial

/-- Witness for C3 as amended: a two-segment token fails with the
format error. -/
theorem C3_format_error_iff_witness :
    (JWTRS256Assert (fun _ => none) (fun _ => none) (fun _ _ _ => false) []
      (.ok (200, [])) "a.b" "i" "access" [] [] 0).1 =
      .error (.Unautorized "invalid JWT format") :=
  (C3_format_error_iff (fun _ => none) (fun _ => none) (fun _ _ _ => false)
    [] (.ok (200, [])) "a.b" "i" "access" [] [] 0
    (fun m h => by cases h)).mpr (by decide)
